import Mathlib

/-
Shallow embedding of the go-mpg123 bindings (src/mpg123/mpg123.go).

The native mpg123 engine is an external black box: every primitive call
into it (mpg123_read, mpg123_feed, mpg123_decode, mpg123_seek) and the
caller-supplied io.Reader are modelled by oracle parameters, either a
single response or a response trace indexed by call number.  The Go
functions of the repository are translated into total Lean functions over
these oracles; the unbounded for-loops of DecoderReader.Read and
Decoder.Decode are given explicit fuel, with the out-of-fuel outcome none
standing for not having returned yet.
-/

/-- Status codes of the native mpg123 engine that the Go code inspects:
MPG123_OK, MPG123_DONE, MPG123_NEED_MORE, MPG123_NEW_FORMAT, and every
remaining status (MPG123_ERR among them) collapsed into the constructor
err, since the Go code never distinguishes inside that remainder. -/
inductive Mpg123Status where
  | ok
  | done
  | needMore
  | newFormat
  | err
  deriving DecidableEq, Repr

/-- Response of one native read or decode call: the status returned and
the byte count the engine wrote (the out-parameter done, or size). -/
structure EngResp where
  status : Mpg123Status
  count : Nat
  deriving DecidableEq, Repr

/-- A Go error value coming from an io.Reader: the distinguished io.EOF
sentinel, or any other error carrying its message. -/
inductive IOErr where
  | eof
  | failure (msg : String)
  deriving DecidableEq, Repr

/-- An error value produced by the Decoder methods: the package-level EOF
variable (var EOF = errors.New("EOF")), or an error built by fmt.Errorf
carrying the engine error string. -/
inductive DecErr where
  | eofMark
  | engineErr (msg : String)
  deriving DecidableEq, Repr

/-- The negotiated output format as the Go code consumes it: the triple
GetFormat returns, with the encoding represented by the byte width the
engine reports for it (mpg123_encsize, an engine-provided pure lookup). -/
structure PcmFormat where
  rate : Int
  channels : Nat
  encsize : Nat
  deriving DecidableEq, Repr

/-- GetEncodingBitsPerSample from the source: 8 * mpg123_encsize(encoding).
The engine lookup mpg123_encsize is the oracle argument. -/
def GetEncodingBitsPerSample (encsize : Nat) : Nat :=
  8 * encsize

/-- The byte count ReadAudioFrames computes for a whole number of PCM
frames: bytesPerSample * frames * channels, with bytesPerSample equal to
GetEncodingBitsPerSample(enc) / 8, exactly as the source computes it. -/
def framesToBytes (fmt : PcmFormat) (frames : Nat) : Nat :=
  (GetEncodingBitsPerSample fmt.encsize / 8) * frames * fmt.channels

/-- Decoder.Read from the source: one native do_mpg123_read call whose
response is the oracle argument resp, with strerror the engine error
string.  MPG123_DONE maps to the EOF value, any status other than
MPG123_OK maps to an fmt.Errorf error carrying strerror, and the byte
count done is returned in every case. -/
def Decoder.Read (resp : EngResp) (strerror : String) : Nat × Option DecErr :=
  if resp.status = Mpg123Status.done then (resp.count, some DecErr.eofMark)
  else if resp.status = Mpg123Status.ok then (resp.count, none)
  else (resp.count, some (DecErr.engineErr ("mpg123 error: " ++ strerror)))

/-- Decoder.ReadAudioFrames from the source: it computes framesToBytes
from the current format and passes that count, together with the address
of the first buffer byte, to the native read.  The buffer length bufLen is
received but never consulted (the Go code uses buf only through the
pointer to buf[0]); engineRead is the oracle giving the native response
as a function of the byte count requested. -/
def Decoder.ReadAudioFrames (fmt : PcmFormat) (frames : Nat) (bufLen : Nat)
    (engineRead : Nat → EngResp) (strerror : String) : Nat × Option DecErr :=
  let r := engineRead (framesToBytes fmt frames)
  if r.status = Mpg123Status.done then (r.count, some DecErr.eofMark)
  else if r.status = Mpg123Status.ok then (r.count, none)
  else (r.count, some (DecErr.engineErr ("mpg123 error: " ++ strerror)))

/-- Decoder.DecodeSamples from the source: it calls ReadAudioFrames, maps
the EOF value to (0, nil), and otherwise returns (rLen / 4, nil). -/
def Decoder.DecodeSamples (fmt : PcmFormat) (samples : Nat) (bufLen : Nat)
    (engineRead : Nat → EngResp) (strerror : String) : Nat × Option DecErr :=
  let r := Decoder.ReadAudioFrames fmt samples bufLen engineRead strerror
  if r.2 = some DecErr.eofMark then (0, none)
  else (r.1 / 4, none)

/-- Decoder.Seek from the source: mpg123_seek is the oracle engineSeek;
its raw return value is cast and returned as the position, paired with a
nil error on every path. -/
def Decoder.Seek (engineSeek : Int → Int → Int) (offset : Int) (whence : Int) :
    Int × Option DecErr :=
  (engineSeek offset whence, none)

/-- Response of one read from the caller-supplied input stream (the
io.Reader bound to the DecoderReader): byte count and Go error value. -/
structure SrcResp where
  n : Nat
  e : Option IOErr
  deriving DecidableEq, Repr

/-- The oracles one DecoderReader.Read call consumes, indexed by loop
iteration: the input stream response, the Feed result when a feed is
issued that iteration, and the native mpg123_read response. -/
structure StreamEnv where
  src : Nat → SrcResp
  feed : Nat → Option String
  eng : Nat → EngResp

/-- What a completed DecoderReader.Read call produced: the returned pair
(n, err), whether Nuke ran (closing the bound decoder input source), and
how many feed/read loop iterations were executed before returning. -/
structure ReadReturn where
  n : Nat
  e : Option IOErr
  nuked : Bool
  iters : Nat
  deriving DecidableEq, Repr

/-- The observable effect of one feed/read loop iteration: the byte count
handed to Feed when a feed was issued, and the return of the enclosing
call when this iteration returned ((n, err) plus whether Nuke ran); none
in ret means the loop continues with the next iteration. -/
structure IterStep where
  fed : Option Nat
  ret : Option (Nat × Option IOErr × Bool)
  deriving DecidableEq, Repr

/-- The status switch at the bottom of the loop body of
DecoderReader.Read: NEW_FORMAT (after logging the re-queried format)
falls through to OK, DONE and NEED_MORE, which share one block: return
(done, nil) when done is positive, otherwise Nuke and return
(done, io.EOF) when the tracked error value equals io.EOF, otherwise
continue the loop.  Every other status (MPG123_ERR among them) matches no
case of the switch, so the loop also continues. -/
def engPhase (r : EngResp) (errVar : Option IOErr) :
    Option (Nat × Option IOErr × Bool) :=
  match r.status with
  | Mpg123Status.err => none
  | _ =>
    if 0 < r.count then some (r.count, none, false)
    else if errVar = some IOErr.eof then some (r.count, some IOErr.eof, true)
    else none

/-- One iteration of the loop body of DecoderReader.Read.  The source is
read first; on a nil error the n bytes are fed and the error variable is
reassigned to the Feed result (a feed failure is only logged); on a
non-nil source error with paranoid set, Nuke runs and the call returns
(0, err); on a non-nil source error without paranoid, nothing is fed and
the source error stays in the error variable.  Then the native read runs
and engPhase decides the outcome. -/
def readIter (paranoid : Bool) (env : StreamEnv) (i : Nat) : IterStep :=
  match (env.src i).e with
  | none =>
    { fed := some (env.src i).n
      ret := engPhase (env.eng i) ((env.feed i).map IOErr.failure) }
  | some e =>
    if paranoid then { fed := none, ret := some (0, some e, true) }
    else { fed := none, ret := engPhase (env.eng i) (some e) }

/-- The unbounded for-loop of DecoderReader.Read, with fuel: none means
the call has not returned within fuel iterations.  The iteration index i
counts the loop entries already made, and the recorded iters is the
number of iterations executed when the call returns. -/
def readLoop (paranoid : Bool) (env : StreamEnv) : Nat → Nat → Option ReadReturn
  | _, 0 => none
  | i, fuel + 1 =>
    match (readIter paranoid env i).ret with
    | some (n, e, nk) => some { n := n, e := e, nuked := nk, iters := i + 1 }
    | none => readLoop paranoid env (i + 1) fuel

/-- DecoderReader.Read from the source: the loop started at iteration 0.
The struct fields of DecoderReader are decoder, src, fps, channels and
paranoid; only paranoid influences control flow, and no field records
termination, so every call starts the loop afresh. -/
def DecoderReader.Read (paranoid : Bool) (env : StreamEnv) (fuel : Nat) :
    Option ReadReturn :=
  readLoop paranoid env 0 fuel

/-- The drain loop of Decoder.Decode: each pass issues one native
mpg123_decode call with no new input (the oracle eng, indexed from 0);
the loop breaks when the status is MPG123_ERR or MPG123_NEED_MORE, and
otherwise appends the size bytes produced (when positive) to the
accumulator.  Returns the accumulated chunk sizes and the status the
break saw; none when fuel ran out before a break. -/
def decodeDrain (eng : Nat → EngResp) : Nat → Nat → Option (List Nat × Mpg123Status)
  | _, 0 => none
  | i, fuel + 1 =>
    if (eng i).status = Mpg123Status.err ∨ (eng i).status = Mpg123Status.needMore then
      some ([], (eng i).status)
    else
      match decodeDrain eng (i + 1) fuel with
      | none => none
      | some (acc, st) =>
        some ((if 0 < (eng i).count then [(eng i).count] else []) ++ acc, st)

/-- Decoder.Decode from the source.  The first combined feed-and-decode
call has response firstResp: a NEW_FORMAT there is only logged, while
MPG123_ERR or MPG123_NEED_MORE returns (nil, error) at once; its size
bytes (when positive) are written to the append-only buffer.  Then the
drain loop runs; if the status it broke on is MPG123_ERR the function
returns (nil, error), discarding the buffer, and otherwise it returns
the buffered bytes with a nil error.  The decoded bytes are modelled by
their chunk sizes. -/
def Decoder.Decode (firstResp : EngResp) (eng : Nat → EngResp) (strerror : String)
    (fuel : Nat) : Option (Option (List Nat) × Option String) :=
  if firstResp.status = Mpg123Status.err ∨ firstResp.status = Mpg123Status.needMore then
    some (none, some ("mpg123 error: " ++ strerror))
  else
    match decodeDrain eng 0 fuel with
    | none => none
    | some (acc, st) =>
      if st = Mpg123Status.err then some (none, some ("mpg123 error: " ++ strerror))
      else
        some (some ((if 0 < firstResp.count then [firstResp.count] else []) ++ acc),
          none)

/-- A 16-bit stereo format: encsize 2 bytes per sample, 2 channels, so 4
bytes per whole PCM frame. -/
def fmtStereo16 : PcmFormat :=
  { rate := 44100, channels := 2, encsize := 2 }

/-- A 16-bit mono format: encsize 2 bytes per sample, 1 channel, so 2
bytes per whole PCM frame. -/
def fmtMono16 : PcmFormat :=
  { rate := 44100, channels := 1, encsize := 2 }

/-- An engine that answers every read with MPG123_OK and 8 bytes. -/
def engOk8 : Nat → EngResp :=
  fun _ => { status := Mpg123Status.ok, count := 8 }

/-- An engine that answers every read with MPG123_OK and 4 bytes. -/
def engOk4 : Nat → EngResp :=
  fun _ => { status := Mpg123Status.ok, count := 4 }

/-- An input stream that reports end-of-input with zero bytes forever. -/
def srcEofAlways : Nat → SrcResp :=
  fun _ => { n := 0, e := some IOErr.eof }

/-- The world after the bound source is exhausted and the decoder was
closed, with the closed engine still answering each read with a handled
status, NEED_MORE, and no output. -/
def envTerminal : StreamEnv :=
  { src := srcEofAlways, feed := fun _ => none
    eng := fun _ => { status := Mpg123Status.needMore, count := 0 } }

/-- A world after close in which the engine answers a read with MPG123_OK
and 5 bytes of output. -/
def envAfterClose : StreamEnv :=
  { src := srcEofAlways, feed := fun _ => none
    eng := fun _ => { status := Mpg123Status.ok, count := 5 } }

/-- A world in which the source is already exhausted (end-of-input on the
very first read) while the engine answers every read with MPG123_ERR and
no output, a status the loop body of DecoderReader.Read handles in no
case of its switch. -/
def envEngineErrLoop : StreamEnv :=
  { src := srcEofAlways, feed := fun _ => none
    eng := fun _ => { status := Mpg123Status.err, count := 0 } }

/-- Divergence of DecoderReader.Read over envEngineErrLoop: no amount of
fuel makes the call return, although the input stream reported
end-of-input on its very first read. -/
def ReadLoopStuck : Prop :=
  ∀ fuel, DecoderReader.Read false envEngineErrLoop fuel = none

/-- A stream whose first read returns 5 bytes together with io.EOF. -/
def envEofWithBytes : StreamEnv :=
  { src := fun _ => { n := 5, e := some IOErr.eof }, feed := fun _ => none
    eng := fun _ => { status := Mpg123Status.needMore, count := 0 } }

/-- A stream whose first read fails with a non-EOF error. -/
def envParanoidBoom : StreamEnv :=
  { src := fun _ => { n := 0, e := some (IOErr.failure "boom") }
    feed := fun _ => none
    eng := fun _ => { status := Mpg123Status.ok, count := 0 } }

/-- A decode drain trace: the first drain pass yields 50 bytes with
MPG123_OK, the next pass hits MPG123_ERR. -/
def drainErrEng : Nat → EngResp :=
  fun i =>
    if i = 0 then { status := Mpg123Status.ok, count := 50 }
    else { status := Mpg123Status.err, count := 0 }

/-- Any iteration outcome engPhase returns carries either a positive byte
count or a non-nil error. -/
theorem engPhase_progress (r : EngResp) (errVar : Option IOErr)
    (n : Nat) (e : Option IOErr) (nk : Bool)
    (h : engPhase r errVar = some (n, e, nk)) : 0 < n ∨ e ≠ none := by
  unfold engPhase at h
  split at h
  · exact absurd h (by simp)
  · split at h
    next hc =>
      simp only [Option.some.injEq, Prod.mk.injEq] at h
      obtain ⟨h1, h2, h3⟩ := h
      exact Or.inl (h1 ▸ hc)
    next hc =>
      split at h
      next hv =>
        simp only [Option.some.injEq, Prod.mk.injEq] at h
        obtain ⟨h1, h2, h3⟩ := h
        exact Or.inr (by rw [← h2]; simp)
      next hv => exact absurd h (by simp)

/-- Any return produced by one loop iteration carries either a positive
byte count or a non-nil error. -/
theorem readIter_progress (paranoid : Bool) (env : StreamEnv) (i : Nat)
    (n : Nat) (e : Option IOErr) (nk : Bool)
    (h : (readIter paranoid env i).ret = some (n, e, nk)) : 0 < n ∨ e ≠ none := by
  unfold readIter at h
  split at h
  · exact engPhase_progress _ _ _ _ _ h
  · split at h
    · simp only [Option.some.injEq, Prod.mk.injEq] at h
      obtain ⟨h1, h2, h3⟩ := h
      exact Or.inr (by rw [← h2]; simp)
    · exact engPhase_progress _ _ _ _ _ h

/-- Any completed run of the feed/read loop, from any iteration index and
with any fuel, carries either a positive byte count or a non-nil error. -/
theorem readLoop_progress (paranoid : Bool) (env : StreamEnv) :
    ∀ (fuel i : Nat) (r : ReadReturn),
      readLoop paranoid env i fuel = some r → 0 < r.n ∨ r.e ≠ none := by
  intro fuel
  induction fuel with
  | zero => intro i r h; simp [readLoop] at h
  | succ fuel ih =>
    intro i r h
    unfold readLoop at h
    cases hit : (readIter paranoid env i).ret with
    | none =>
      rw [hit] at h
      exact ih (i + 1) r h
    | some v =>
      obtain ⟨n, e, nk⟩ := v
      rw [hit] at h
      have hr := Option.some.inj h
      have := readIter_progress paranoid env i n e nk hit
      rw [← hr]
      exact this

/-- Unfolding equation of readLoop at positive fuel. -/
theorem readLoop_succ_eq (paranoid : Bool) (env : StreamEnv) (i fuel : Nat) :
    readLoop paranoid env i (fuel + 1) =
      match (readIter paranoid env i).ret with
      | some (n, e, nk) => some { n := n, e := e, nuked := nk, iters := i + 1 }
      | none => readLoop paranoid env (i + 1) fuel :=
  rfl

/-- Iterations whose readIter outcome is none are skipped: the loop
started at i with fuel m + fuel reaches iteration i + m with fuel left. -/
theorem readLoop_skip (paranoid : Bool) (env : StreamEnv) :
    ∀ (m i fuel : Nat),
      (∀ j, i ≤ j → j < i + m → (readIter paranoid env j).ret = none) →
      readLoop paranoid env i (m + fuel) = readLoop paranoid env (i + m) fuel := by
  intro m
  induction m with
  | zero =>
    intro i fuel _
    rw [Nat.zero_add, Nat.add_zero]
  | succ m ih =>
    intro i fuel hnone
    have hstep : (readIter paranoid env i).ret = none :=
      hnone i (Nat.le_refl i) (by omega)
    have harith : m + 1 + fuel = (m + fuel) + 1 := by omega
    rw [harith, readLoop_succ_eq, hstep]
    show readLoop paranoid env (i + 1) (m + fuel) = _
    have hih := ih (i + 1) fuel (fun j hj1 hj2 => hnone j (by omega) (by omega))
    have harith2 : i + 1 + m = i + (m + 1) := by omega
    rw [hih, harith2]

/-- When the tracked error value is io.EOF and the engine status is one
the switch handles, engPhase returns (the source cannot make the loop
spin in that configuration). -/
theorem engPhase_handled_eof (r : EngResp) (h : r.status ≠ Mpg123Status.err) :
    (engPhase r (some IOErr.eof)).isSome := by
  cases hs : r.status
  case err => exact absurd hs h
  all_goals simp [engPhase, hs]
  all_goals split <;> simp

/-- In lenient mode, if every engine status is handled and the source
reports end-of-input d iterations ahead, the loop returns within d + 1
iterations. -/
theorem readLoop_term (env : StreamEnv)
    (heng : ∀ j, (env.eng j).status ≠ Mpg123Status.err) :
    ∀ (d i : Nat), (env.src (i + d)).e = some IOErr.eof →
      (readLoop false env i (d + 1)).isSome := by
  intro d
  induction d with
  | zero =>
    intro i hsrc
    rw [Nat.add_zero] at hsrc
    unfold readLoop
    cases hit : (readIter false env i).ret with
    | some v =>
      obtain ⟨n, e, nk⟩ := v
      rfl
    | none =>
      exfalso
      unfold readIter at hit
      rw [hsrc] at hit
      simp at hit
      have := engPhase_handled_eof (env.eng i) (heng i)
      rw [hit] at this
      simp at this
  | succ d ih =>
    intro i hsrc
    unfold readLoop
    cases hit : (readIter false env i).ret with
    | some v =>
      obtain ⟨n, e, nk⟩ := v
      rfl
    | none =>
      show (readLoop false env (i + 1) (d + 1)).isSome
      apply ih (i + 1)
      have harith : i + 1 + d = i + (d + 1) := by omega
      rw [harith]
      exact hsrc

/-- Claim C1: every DecoderReader.Read call that returns yields either a
positive byte count or a non-nil error; the pair (0, nil) is never
returned. -/
theorem DecoderReader.Read_never_zero_nil (paranoid : Bool) (env : StreamEnv)
    (fuel : Nat) (r : ReadReturn)
    (h : DecoderReader.Read paranoid env fuel = some r) : 0 < r.n ∨ r.e ≠ none :=
  readLoop_progress paranoid env fuel 0 r h

/-- Witness for claim C1 at a concrete input: the call over envAfterClose
with fuel 1 returns 5 bytes with a nil error, and that return satisfies
the progress disjunction. -/
theorem DecoderReader.Read_never_zero_nil_witness :
    0 < ({ n := 5, e := none, nuked := false, iters := 1 } : ReadReturn).n ∨
      ({ n := 5, e := none, nuked := false, iters := 1 } : ReadReturn).e ≠ none :=
  DecoderReader.Read_never_zero_nil false envAfterClose 1
    { n := 5, e := none, nuked := false, iters := 1 } rfl

/-- Claim C2, counterexample: the DecoderReader struct holds only
decoder, src, fps, channels and paranoid, no terminal flag, so a call
made after the session signalled end-of-stream starts the feed/read loop
afresh.  First conjunct: the call over the exhausted source returns
(0, io.EOF) and closes the decoder, the terminal event.  Second and
third conjuncts: a subsequent call (whose world envAfterClose has the
closed engine answer MPG123_OK with 5 bytes) executes a full loop
iteration (iters = 1, reading both the source and the closed engine,
rather than returning immediately without the loop) and returns (5, nil),
which is not the end-of-stream signal. -/
theorem DecoderReader.Read_not_terminal_idempotent_cex :
    DecoderReader.Read false envTerminal 1 =
      some { n := 0, e := some IOErr.eof, nuked := true, iters := 1 } ∧
    DecoderReader.Read false envAfterClose 1 =
      some { n := 5, e := none, nuked := false, iters := 1 } ∧
    ({ n := 5, e := none, nuked := false, iters := 1 } : ReadReturn).e ≠
      some IOErr.eof :=
  ⟨rfl, rfl, by simp⟩

/-- Claim C2, amended: after end-of-stream the session re-enters the
feed/read loop on every subsequent call, because no field of the struct
records termination; when the exhausted source keeps reporting
end-of-input and the closed engine keeps answering a handled status with
no output, each such call executes one full loop iteration (iters = 1,
never an immediate return without the loop), closes the decoder again
and returns (0, io.EOF). -/
theorem DecoderReader.Read_post_terminal_reenters_loop (env : StreamEnv)
    (fuel : Nat)
    (hsrc : ∀ i, env.src i = { n := 0, e := some IOErr.eof })
    (heng : ∀ i, env.eng i = { status := Mpg123Status.needMore, count := 0 }) :
    DecoderReader.Read false env (fuel + 1) =
      some { n := 0, e := some IOErr.eof, nuked := true, iters := 1 } := by
  have hiter : (readIter false env 0).ret = some (0, some IOErr.eof, true) := by
    simp [readIter, hsrc 0, heng 0, engPhase]
  unfold DecoderReader.Read readLoop
  rw [hiter]

/-- Witness for the amended claim C2 at a concrete input: over
envTerminal with fuel 3 a repeat call again returns (0, io.EOF) after one
full loop iteration. -/
theorem DecoderReader.Read_post_terminal_reenters_loop_witness :
    DecoderReader.Read false envTerminal 3 =
      some { n := 0, e := some IOErr.eof, nuked := true, iters := 1 } :=
  DecoderReader.Read_post_terminal_reenters_loop envTerminal 2
    (fun _ => rfl) (fun _ => rfl)

/-- Claim C3, evaluated at the failing input: with a 16-bit stereo format
the byte count computed for one frame is 4; called with a buffer of
length 1, ReadAudioFrames still issues the native read for 4 bytes (no
guard compares the computed count against the buffer length: the result
is the same for buffer lengths 1 and 4) and reports 4 bytes written into
the 1-byte buffer, an out-of-bounds write. -/
theorem Decoder.ReadAudioFrames_no_buffer_guard :
    framesToBytes fmtStereo16 1 = 4 ∧
    1 < framesToBytes fmtStereo16 1 ∧
    Decoder.ReadAudioFrames fmtStereo16 1 1 engOk4 "" = (4, none) ∧
    Decoder.ReadAudioFrames fmtStereo16 1 1 engOk4 "" =
      Decoder.ReadAudioFrames fmtStereo16 1 4 engOk4 "" := by
  refine ⟨rfl, ?_, rfl, rfl⟩
  decide

/-- Claim C4, evaluated at the failing input: the input stream returns 5
bytes together with io.EOF on the very first loop iteration.  Because the
loop feeds only when the source error is nil, the 5 bytes are never fed
(fed = none, in lenient and in paranoid mode alike) and the lenient call
returns (0, io.EOF): the bytes delivered together with the end-of-input
signal are dropped, where the claim says they are fed to the decoder. -/
theorem DecoderReader.Read_drops_bytes_with_eof :
    (envEofWithBytes.src 0).n = 5 ∧
    (envEofWithBytes.src 0).e = some IOErr.eof ∧
    (readIter false envEofWithBytes 0).fed = none ∧
    (readIter true envEofWithBytes 0).fed = none ∧
    DecoderReader.Read false envEofWithBytes 1 =
      some { n := 0, e := some IOErr.eof, nuked := true, iters := 1 } :=
  ⟨rfl, rfl, rfl, rfl, rfl⟩

/-- Claim C5, counterexample: the first combined call decoded 100 bytes
and the drain loop accumulated a further 50-byte chunk before hitting
MPG123_ERR, yet Decode returns (nil, error): the accumulated output is
discarded, not returned together with the error as the claim states. -/
theorem Decoder.Decode_discards_partial_output_cex :
    decodeDrain drainErrEng 0 2 = some ([50], Mpg123Status.err) ∧
    Decoder.Decode { status := Mpg123Status.ok, count := 100 } drainErrEng "E" 2 =
      some (none, some "mpg123 error: E") ∧
    ([50] : List Nat) ≠ [] :=
  ⟨rfl, rfl, by simp⟩

/-- Claim C5, amended: when the drain loop of Decode breaks on a hard
engine error, Decode returns (nil, error) and the bytes already
accumulated in its buffer are discarded, whatever they were. -/
theorem Decoder.Decode_nil_on_drain_error (firstResp : EngResp)
    (eng : Nat → EngResp) (strerror : String) (fuel : Nat) (acc : List Nat)
    (h1 : firstResp.status ≠ Mpg123Status.err)
    (h2 : firstResp.status ≠ Mpg123Status.needMore)
    (hdrain : decodeDrain eng 0 fuel = some (acc, Mpg123Status.err)) :
    Decoder.Decode firstResp eng strerror fuel =
      some (none, some ("mpg123 error: " ++ strerror)) := by
  unfold Decoder.Decode
  rw [if_neg (by simp [h1, h2])]
  rw [hdrain]
  simp

/-- Witness for the amended claim C5 at a concrete input: the first call
decoded 100 bytes, the drain accumulated [50] before the error, and the
result is (nil, error). -/
theorem Decoder.Decode_nil_on_drain_error_witness :
    Decoder.Decode { status := Mpg123Status.ok, count := 100 } drainErrEng "E" 2 =
      some (none, some ("mpg123 error: " ++ "E")) :=
  Decoder.Decode_nil_on_drain_error { status := Mpg123Status.ok, count := 100 }
    drainErrEng "E" 2 [50] (by simp) (by simp) rfl

/-- Claim C6, counterexample: over envEngineErrLoop the input stream
reports end-of-input on its very first read, yet the lenient
DecoderReader.Read call never returns: the engine answers every read
with MPG123_ERR, a status the switch handles in no case, so the loop
re-attempts forever and no fuel suffices. -/
theorem DecoderReader.Read_unhandled_status_diverges_cex : ReadLoopStuck := by
  intro fuel
  suffices h : ∀ f i, readLoop false envEngineErrLoop i f = none from h fuel 0
  intro f
  induction f with
  | zero => intro i; rfl
  | succ f ih =>
    intro i
    have hit : (readIter false envEngineErrLoop i).ret = none := rfl
    unfold readLoop
    rw [hit]
    exact ih (i + 1)

/-- Claim C6, amended: in lenient mode a DecoderReader.Read call
terminates for every input stream that eventually reports end-of-input,
provided every engine read returns a status the switch handles (NEW
FORMAT, OK, DONE or NEED_MORE): if the source reports end-of-input at
iteration k, the call returns within k + 1 iterations. -/
theorem DecoderReader.Read_terminates_on_handled_statuses (env : StreamEnv)
    (k : Nat) (hsrc : (env.src k).e = some IOErr.eof)
    (heng : ∀ j, (env.eng j).status ≠ Mpg123Status.err) :
    ∃ r, DecoderReader.Read false env (k + 1) = some r := by
  have h := readLoop_term env heng k 0 (by rw [Nat.zero_add]; exact hsrc)
  exact Option.isSome_iff_exists.mp h

/-- Witness for the amended claim C6 at a concrete input: over
envTerminal, whose source is at end-of-input from iteration 0 and whose
engine always answers NEED_MORE, the call with fuel 1 returns. -/
theorem DecoderReader.Read_terminates_on_handled_statuses_witness :
    ∃ r, DecoderReader.Read false envTerminal 1 = some r :=
  DecoderReader.Read_terminates_on_handled_statuses envTerminal 0 rfl
    (fun j h => by simp [envTerminal] at h)

/-- Claim C7: Decoder.Read returns the byte count together with the
distinguished end-of-stream value exactly when the engine reports DONE,
returns the byte count together with an error carrying the engine error
string exactly when the engine reports any status other than OK or DONE,
and the end-of-stream value is distinct from every engine-error value. -/
theorem Decoder.Read_status_translation (resp : EngResp) (strerror : String) :
    ((Decoder.Read resp strerror).2 = some DecErr.eofMark ↔
      resp.status = Mpg123Status.done) ∧
    ((Decoder.Read resp strerror).2 =
        some (DecErr.engineErr ("mpg123 error: " ++ strerror)) ↔
      (resp.status ≠ Mpg123Status.done ∧ resp.status ≠ Mpg123Status.ok)) ∧
    (Decoder.Read resp strerror).1 = resp.count ∧
    (some DecErr.eofMark ≠
      some (DecErr.engineErr ("mpg123 error: " ++ strerror))) := by
  obtain ⟨status, count⟩ := resp
  cases status <;> simp [Decoder.Read]

/-- Claim C8: with paranoid mode enabled, the first iteration at which
the input stream reports an error (all earlier iterations having
continued the loop) makes the call close the bound decoder input source
(Nuke) and return (0, e) with e that exact input-stream error value;
taking i = 0 covers an error on the very first read attempt. -/
theorem DecoderReader.Read_paranoid_first_error (env : StreamEnv)
    (i n fuel : Nat) (e : IOErr)
    (hsrc : env.src i = { n := n, e := some e })
    (hprior : ∀ j, j < i → (readIter true env j).ret = none) :
    DecoderReader.Read true env (i + (fuel + 1)) =
      some { n := 0, e := some e, nuked := true, iters := i + 1 } := by
  unfold DecoderReader.Read
  have hskip := readLoop_skip true env i 0 (fuel + 1)
    (fun j h0 hj => hprior j (by omega))
  rw [Nat.zero_add] at hskip
  rw [hskip]
  have hiter : (readIter true env i).ret = some (0, some e, true) := by
    unfold readIter
    rw [hsrc]
    rfl
  rw [readLoop_succ_eq, hiter]

/-- Witness for claim C8 at a concrete input: over envParanoidBoom the
very first read fails with the error boom, and the paranoid call returns
(0, boom) with the decoder closed. -/
theorem DecoderReader.Read_paranoid_first_error_witness :
    DecoderReader.Read true envParanoidBoom 1 =
      some { n := 0, e := some (IOErr.failure "boom"), nuked := true, iters := 1 } :=
  DecoderReader.Read_paranoid_first_error envParanoidBoom 0 0 0
    (IOErr.failure "boom") rfl (fun j hj => absurd hj (Nat.not_lt_zero j))

/-- Claim C9, counterexample: with a negotiated 16-bit mono format (2
bytes per frame) and an engine read decoding 8 bytes, 4 whole PCM frames
were decoded, but DecodeSamples returns 2 (it divides the byte count by
the constant 4 regardless of the negotiated format). -/
theorem Decoder.DecodeSamples_not_frame_count_cex :
    Decoder.DecodeSamples fmtMono16 4 8 engOk8 "" = (2, none) ∧
    framesToBytes fmtMono16 1 = 2 ∧
    8 / framesToBytes fmtMono16 1 = 4 ∧
    (2 : Nat) ≠ 4 := by
  refine ⟨rfl, rfl, rfl, ?_⟩
  decide

/-- Claim C9, amended: DecodeSamples collapses end-of-stream to (0, nil),
and on every other outcome of the underlying read returns the decoded
byte count divided by the constant 4 with a nil error; that quotient is
the whole-frame count only for formats occupying 4 bytes per frame. -/
theorem Decoder.DecodeSamples_div_four (fmt : PcmFormat) (samples bufLen : Nat)
    (engineRead : Nat → EngResp) (strerror : String) :
    ((Decoder.ReadAudioFrames fmt samples bufLen engineRead strerror).2 =
        some DecErr.eofMark →
      Decoder.DecodeSamples fmt samples bufLen engineRead strerror = (0, none)) ∧
    ((Decoder.ReadAudioFrames fmt samples bufLen engineRead strerror).2 ≠
        some DecErr.eofMark →
      Decoder.DecodeSamples fmt samples bufLen engineRead strerror =
        ((Decoder.ReadAudioFrames fmt samples bufLen engineRead strerror).1 / 4,
          none)) := by
  constructor
  · intro h
    simp [Decoder.DecodeSamples, h]
  · intro h
    simp [Decoder.DecodeSamples, h]

/-- Claim C10: Decoder.Seek returns a nil error for every offset and
whence value, handing back the raw engine return value unchecked as the
resulting position, including when that value is a negative error code. -/
theorem Decoder.Seek_always_nil_error (engineSeek : Int → Int → Int)
    (offset whence : Int) :
    Decoder.Seek engineSeek offset whence = (engineSeek offset whence, none) :=
  rfl
